import Mathlib

/-!
Verification of the mercurius placeholder-substitution pipeline.

This file is a shallow embedding, in Lean 4, of the string-processing core of
the repository:

- `src/tools/finalize_sql.py` (`flatten_concept_ids`, `finalize_sql_tool`),
- `src/utils/extractors.py` (`extract_valueset_identifiers_from_cql`,
  `extract_individual_codes_from_cql`),
- the placeholder-derivation expressions of `src/tools/map_vsac_to_omop.py`
  and `src/tools/extract_valuesets_with_omop.py`.

Python strings are modelled as Lean `String` / `List Char`; the Python string
primitives used by the source (`str.strip`, `str.split(',')`, `str.replace`,
`in` substring test, `str.upper`, `", ".join`) are defined below, faithful to
CPython semantics on the inputs the source feeds them.

Where CPython iterates over a `set` (the set of unique placeholders found in
the SQL, in `finalize_sql_tool`), the iteration order is unspecified and can
change from run to run (string hashing is randomized).  The embedding makes
that order an explicit parameter (`order`), to be instantiated with any
permutation of the discovered-token set; theorems either hold for every such
permutation or exhibit two permutations with different outcomes.
-/

deriving instance DecidableEq for Except

namespace Mercurius

/-- Whitespace for Python `str.strip` / regex `\s`: space, tab, newline,
carriage return, vertical tab, form feed. -/
def pyIsSpace (c : Char) : Bool :=
  c == ' ' || c == '\t' || c == '\n' || c == '\r' || c == Char.ofNat 11 || c == Char.ofNat 12

/-- Python `str.strip()`: drop whitespace from both ends. -/
def pyStripL (l : List Char) : List Char :=
  List.rdropWhile pyIsSpace (List.dropWhile pyIsSpace l)

/-- Python `str.split(',')`: split on every comma, keeping empty pieces. -/
def splitComma (l : List Char) : List (List Char) :=
  match l with
  | [] => [[]]
  | c :: rest =>
    if c = ',' then [] :: splitComma rest
    else
      match splitComma rest with
      | [] => [[c]]
      | g :: gs => (c :: g) :: gs

/-- Recursion core of `pyReplaceL`, structural on a fuel argument so that the
kernel can evaluate it; with non-empty pattern `p`, each step consumes at
least one character, so `fuel = s.length` never runs out (`fuel = 0` with a
non-empty list is unreachable from `pyReplaceL`). -/
def pyReplaceGo (p r : List Char) : Nat → List Char → List Char
  | _, [] => []
  | 0, s => s
  | fuel + 1, c :: rest =>
    if p.isPrefixOf (c :: rest) then r ++ pyReplaceGo p r fuel ((c :: rest).drop p.length)
    else c :: pyReplaceGo p r fuel rest

/-- Python `str.replace(old, new)`: replace every non-overlapping occurrence,
scanning left to right.  (With an empty `old`, CPython inserts `new` before
every character and at the end; no call site in the source uses that case.) -/
def pyReplaceL (s p r : List Char) : List Char :=
  if p = [] then r ++ (s.map (fun c => [c] ++ r)).flatten
  else pyReplaceGo p r s.length s

/-- Python `sub in s` substring test. -/
def containsSubL : List Char → List Char → Bool
  | [], p => p.isEmpty
  | c :: rest, p => p.isPrefixOf (c :: rest) || containsSubL rest p

/-- Word characters of the regex class `[\w_]` (ASCII). -/
def isWordChar (c : Char) : Bool := c.isAlphanum || c == '_'

/-- The literal prefix of every placeholder token. -/
def placeholderLit : List Char := "PLACEHOLDER_".data

/-- Helper: `dropWhile` never lengthens a list. -/
theorem length_dropWhile_le (p : Char → Bool) (l : List Char) :
    (l.dropWhile p).length ≤ l.length :=
  (List.dropWhile_suffix p).sublist.length_le

/-- Recursion core of `findPlaceholdersL`, structural on a fuel argument so
that the kernel can evaluate it; each step consumes at least one character, so
`fuel = s.length` never runs out. -/
def findPlaceholdersGo : Nat → List Char → List (List Char)
  | _, [] => []
  | 0, _ => []
  | fuel + 1, c :: rest =>
    if placeholderLit.isPrefixOf (c :: rest) then
      if ((c :: rest).drop placeholderLit.length).takeWhile isWordChar = [] then
        findPlaceholdersGo fuel rest
      else
        (placeholderLit ++ ((c :: rest).drop placeholderLit.length).takeWhile isWordChar) ::
          findPlaceholdersGo fuel (((c :: rest).drop placeholderLit.length).dropWhile isWordChar)
    else findPlaceholdersGo fuel rest

/-- Embedding of `re.findall(r'PLACEHOLDER_[\w_]+', sql)`: scan left to right;
at each position where the literal `PLACEHOLDER_` is followed by at least one
word character, emit the literal plus the maximal word-character run, and
resume scanning after the match (matches are non-overlapping). -/
def findPlaceholdersL (s : List Char) : List (List Char) :=
  findPlaceholdersGo s.length s

/-- String-level wrappers. -/
def pyStrip (s : String) : String := String.mk (pyStripL s.data)

def pyReplace (s p r : String) : String := String.mk (pyReplaceL s.data p.data r.data)

def containsSub (s p : String) : Bool := containsSubL s.data p.data

def findPlaceholders (s : String) : List String := (findPlaceholdersL s.data).map String.mk

/-- The set of unique placeholders, represented as the deduplicated list in
first-occurrence order.  (CPython's `set(...)` enumerates in an unspecified
order; every property proved about this list is invariant under permutation,
and the engine takes its iteration order as an explicit parameter.) -/
def uniqueFirst (l : List String) : List String :=
  l.foldl (fun acc x => if x ∈ acc then acc else acc ++ [x]) []

/-- Embedding of `flatten_concept_ids` (finalize_sql.py lines 12-38), applied
to one list element: strip; if the result starts with a parenthesis and ends
with one, split the interior on commas and keep the stripped non-empty parts;
otherwise keep the stripped element if non-empty. -/
def itemFlat (s : String) : List String :=
  let t := pyStripL s.data
  if t.head? = some '(' ∧ t.getLast? = some ')' then
    (splitComma (t.drop 1).dropLast).filterMap (fun part =>
      let c := pyStripL part
      if c = [] then none else some (String.mk c))
  else if t = [] then [] else [String.mk t]

/-- Embedding of `flatten_concept_ids` (finalize_sql.py lines 12-38). -/
def flatten_concept_ids (l : List String) : List String :=
  (l.map itemFlat).flatten

/-- The per-token pair (concepts_str, flattened_ids) of finalize_sql.py lines
111-119: a non-empty raw list is flattened and comma-joined; an empty raw list
gives the string `NULL` and an empty flattened list. -/
def conceptsStrAndIds (raw : List String) : String × List String :=
  if raw = [] then ("NULL", [])
  else
    let f := flatten_concept_ids raw
    (String.intercalate ", " f, f)

/-- The `(id1), (id2), ...` list used for SQL Server `VALUES` clauses. -/
def valuesClause (ids : List String) : String :=
  String.intercalate ", " (ids.map (fun i => "(" ++ i ++ ")"))

/-- Replacement string for pattern 1, `IN (SELECT value FROM TOKEN)`
(finalize_sql.py lines 128-134). -/
def pattern1Replacement (sqlserver : Bool) (raw : List String) : String :=
  let cs := conceptsStrAndIds raw
  if sqlserver && !cs.2.isEmpty then
    "IN (SELECT value FROM (VALUES " ++ valuesClause cs.2 ++ ") AS t(value))"
  else
    "IN (" ++ cs.1 ++ ")"

/-- Replacement string for pattern 2, the two `SELECT value FROM ...` forms
(finalize_sql.py lines 143-149). -/
def fromReplacement (sqlserver : Bool) (raw : List String) : String :=
  let cs := conceptsStrAndIds raw
  if sqlserver && !cs.2.isEmpty then
    "SELECT value FROM (VALUES " ++ valuesClause cs.2 ++ ") AS t(value)"
  else cs.1

/-- Per-token replacement (finalize_sql.py lines 107-164): pattern 1 and the
two pattern-2 forms are each tested against the current SQL; pattern 3
(`(TOKEN)`) runs only when no earlier pattern matched, and pattern 4 (bare
`TOKEN`) only when patterns 1-3 all failed to match.  The Bool component
models the `replaced` flag. -/
def processPlaceholder (sqlserver : Bool) (t : String) (raw : List String) (sql0 : String) :
    String :=
  let concepts_str := (conceptsStrAndIds raw).1
  let subq := "IN (SELECT value FROM " ++ t ++ ")"
  let st1 : String × Bool :=
    if containsSub sql0 subq then (pyReplace sql0 subq (pattern1Replacement sqlserver raw), true)
    else (sql0, false)
  let st2 := List.foldl
    (fun (st : String × Bool) (pat : String) =>
      if containsSub st.1 pat then (pyReplace st.1 pat (fromReplacement sqlserver raw), true)
      else st)
    st1 ["SELECT value FROM (" ++ t ++ ")", "SELECT value FROM " ++ t]
  let st3 :=
    if !st2.2 && containsSub st2.1 ("(" ++ t ++ ")") then
      (pyReplace st2.1 ("(" ++ t ++ ")") ("(" ++ concepts_str ++ ")"), true)
    else st2
  if !st3.2 && containsSub st3.1 t then pyReplace st3.1 t ("(" ++ concepts_str ++ ")")
  else st3.1

/-- Accumulator of the replacement loop (finalize_sql.py lines 103-170). -/
structure LoopState where
  final_sql : String
  replacements_made : Nat
  unmapped : List String
deriving DecidableEq

/-- Python dict lookup `placeholder in placeholder_mappings` /
`placeholder_mappings[placeholder]`, on an association list (dict keys are
unique). -/
def lookupMapping (m : List (String × List String)) (k : String) : Option (List String) :=
  match m with
  | [] => none
  | (a, v) :: rest => if a = k then some v else lookupMapping rest k

/-- One iteration of the replacement loop (finalize_sql.py lines 107-170): a
mapped token is run through the four patterns and counts toward
`replacements_made` whether or not any pattern matched; an unmapped token is
appended to `unmapped_placeholders` and the SQL is untouched. -/
def finalizeStep (sqlserver : Bool) (m : List (String × List String))
    (st : LoopState) (t : String) : LoopState :=
  match lookupMapping m t with
  | some raw =>
    { final_sql := processPlaceholder sqlserver t raw st.final_sql
      replacements_made := st.replacements_made + 1
      unmapped := st.unmapped }
  | none => { st with unmapped := st.unmapped ++ [t] }

/-- The `statistics` dict of finalize_sql.py lines 178-190. -/
structure FinalizeStatistics where
  placeholders_found : Nat
  placeholders_replaced : Nat
  unmapped_placeholders : Nat
  remaining_placeholders : Nat
  total_concept_ids_used : Nat
  sql_length_before : Nat
  sql_length_after : Nat
deriving DecidableEq

/-- The dict returned by `finalize_sql_tool`; absent keys are `none`. -/
structure FinalizeResult where
  success : Bool
  final_sql : Option String
  original_sql : Option String
  error : Option String
  step : Option String
  replacements_made : Nat
  unmapped_placeholders : List String
  remaining_placeholders : List String
  statistics : Option FinalizeStatistics
deriving DecidableEq

/-- Embedding of `finalize_sql_tool` (finalize_sql.py lines 41-211), with the
dialect test `sql_dialect == "sqlserver"` precomputed as a Bool and the
iteration order over the set of unique placeholders passed explicitly (see the
file header); a faithful run instantiates `order` with some permutation of
`uniqueFirst (findPlaceholders sql_query)`. -/
def finalizeCore (sql_query : String) (placeholder_mappings : List (String × List String))
    (sqlserver : Bool) (order : List String) : FinalizeResult :=
  if sql_query = "" then
    { success := false, final_sql := none, original_sql := none
      error := some "No SQL query provided", step := some "finalize_sql"
      replacements_made := 0, unmapped_placeholders := [], remaining_placeholders := []
      statistics := none }
  else if placeholder_mappings = [] then
    { success := false, final_sql := none, original_sql := none
      error := some "No placeholder mappings provided", step := some "finalize_sql"
      replacements_made := 0, unmapped_placeholders := [], remaining_placeholders := []
      statistics := none }
  else
    let unique := uniqueFirst (findPlaceholders sql_query)
    let res := order.foldl (finalizeStep sqlserver placeholder_mappings)
      { final_sql := sql_query, replacements_made := 0, unmapped := [] }
    let remaining := findPlaceholders res.final_sql
    { success := remaining.isEmpty
      final_sql := some res.final_sql
      original_sql := some sql_query
      error := none
      step := none
      replacements_made := res.replacements_made
      unmapped_placeholders := res.unmapped
      remaining_placeholders := remaining
      statistics := some
        { placeholders_found := unique.length
          placeholders_replaced := res.replacements_made
          unmapped_placeholders := res.unmapped.length
          remaining_placeholders := remaining.length
          total_concept_ids_used :=
            (placeholder_mappings.filterMap (fun pr =>
              if pr.1 ∈ unique then some (flatten_concept_ids pr.2).length else none)).sum
          sql_length_before := sql_query.length
          sql_length_after := res.final_sql.length } }

/-- Embedding of `finalize_sql_tool`: the only use of `sql_dialect` in the
source is the comparison with the literal `"sqlserver"`. -/
def finalize_sql_tool (sql_query : String) (placeholder_mappings : List (String × List String))
    (sql_dialect : String) (order : List String) : FinalizeResult :=
  finalizeCore sql_query placeholder_mappings (sql_dialect == "sqlserver") order

/-- Spec-worded counterpart of `pattern1Replacement` (spec section 4.6 step 3,
pattern 1), amended so that the comma-joined list reads `NULL` exactly when
the raw registry value is empty (the source computes `concepts_str` from the
raw list's emptiness, not the flattened list's). -/
def specPattern1Replacement (sqlserver : Bool) (raw : List String) : String :=
  let ids := flatten_concept_ids raw
  if sqlserver && !ids.isEmpty then
    "IN (SELECT value FROM (VALUES "
      ++ String.intercalate ", " (ids.map (fun i => "(" ++ i ++ ")")) ++ ") AS t(value))"
  else
    "IN (" ++ (if raw = [] then "NULL" else String.intercalate ", " ids) ++ ")"

/-- Python `str.upper()` (ASCII): uppercase every character. -/
def pyUpper (s : String) : String := String.mk (s.data.map Char.toUpper)

/-- Placeholder for an individual (system, code) pair, from
map_vsac_to_omop.py lines 682-684 and extract_valuesets_with_omop.py lines
122-124: the code has dashes and dots replaced by underscores, and only the
system name is uppercased. -/
def individualCodePlaceholder (system code : String) : String :=
  "PLACEHOLDER_" ++ pyUpper system ++ "_" ++ pyReplace (pyReplace code "-" "_") "." "_"

/-- Placeholder for a value-set OID, from extract_valuesets_with_omop.py line
110: only dots are replaced by underscores; nothing is uppercased. -/
def valuesetPlaceholder (oid : String) : String :=
  "PLACEHOLDER_" ++ pyReplace oid "." "_"

/-- The claimed derivation rule (spec section 4.2): dots then dashes replaced
by underscores, then the WHOLE identifier uppercased. -/
def claimPlaceholder (identifier : String) : String :=
  "PLACEHOLDER_" ++ pyUpper (pyReplace (pyReplace identifier "." "_") "-" "_")

/-- Concrete SQL of the spec's unmapped-token scenario (spec section 8 item
6): one mapped token and one token absent from the registry, with no overlap
between the two tokens' occurrences. -/
def unmappedExampleSql : String :=
  "SELECT * FROM t WHERE a IN (PLACEHOLDER_DIABETES) AND b IN (PLACEHOLDER_UNKNOWN_X)"

/-- Registry for `unmappedExampleSql`: only the first token is mapped. -/
def unmappedExampleMappings : List (String × List String) :=
  [("PLACEHOLDER_DIABETES", ["101", "102"])]

/-- Pointwise form of `str.replace(".", "_")` (single-character pattern and
replacement act character by character). -/
def dotToUnderscore (c : Char) : Char := if c = '.' then '_' else c

/-- Pointwise form of `str.replace("-", "_")`. -/
def dashToUnderscore (c : Char) : Char := if c = '-' then '_' else c

/-- The apostrophe character (written via its code point to keep source text
simple). -/
def aposChar : Char := Char.ofNat 39

/-- A one-character string holding an apostrophe. -/
def aposStr : String := String.mk [aposChar]

/-- Case-insensitive character equality, for `re.IGNORECASE` (ASCII). -/
def ciEq (a b : Char) : Bool := a.toLower == b.toLower

/-- Case-insensitive literal-prefix match (first argument is the literal). -/
def ciStartsWith : List Char → List Char → Bool
  | [], _ => true
  | _ :: _, [] => false
  | a :: as, b :: bs => ciEq a b && ciStartsWith as bs

/-- Characters matched by the regex fragment `[\d.]`, i.e. the characters an
OID group can consume. -/
def isOidChar (c : Char) : Bool := c.isDigit || c == '.'

/-- No two adjacent dots. -/
def noDoubleDot : List Char → Bool
  | [] => true
  | [_] => true
  | a :: b :: rest => !(a == '.' && b == '.') && noDoubleDot (b :: rest)

/-- The language of the regex group `(\d+\.)*\d+`: non-empty strings of digits
and dots that start and end with a digit and contain no adjacent dots
(equivalently, dot-separated non-empty digit runs). -/
def oidValid (l : List Char) : Bool :=
  !l.isEmpty && l.all isOidChar &&
    (match l.head? with | some c => c.isDigit | none => false) &&
    (match l.getLast? with | some c => c.isDigit | none => false) &&
    noDoubleDot l

/-- Continuation of the valueset-declaration regex
`(valueset\s")(.+)(":\s')(urn:oid:)((\d+\.)*\d+)(')` after the name group:
one double quote, a colon, ONE whitespace, an apostrophe, the literal
`urn:oid:` (case-insensitive), the OID group, and a closing apostrophe.
Because the OID group consumes only digits and dots - never an apostrophe -
the regex engine's backtracking over `((\d+\.)*\d+)` succeeds exactly when
the maximal digit-and-dot run after `urn:oid:` is grammatically valid and is
followed immediately by an apostrophe, which is what this function tests.
Returns the OID group and the remaining input after the match. -/
def vsTail (s : List Char) : Option (List Char × List Char) :=
  match s with
  | q :: colon :: w :: a :: rest =>
    if q = '"' ∧ colon = ':' ∧ pyIsSpace w ∧ a = aposChar then
      if ciStartsWith "urn:oid:".data rest then
        if oidValid ((rest.drop 8).takeWhile isOidChar) then
          match (rest.drop 8).dropWhile isOidChar with
          | b :: rest3 =>
            if b = aposChar then some ((rest.drop 8).takeWhile isOidChar, rest3) else none
          | [] => none
        else none
      else none
    else none
  | _ => none

/-- Search for the greedy name group `(.+)` of the valueset pattern: regex
greediness tries the LONGEST name first (here, length `k` counting down), the
name may not contain a newline (`.` does not match one), and the remainder
must match `vsTail`.  Returns (name, oid, rest-after-match). -/
def group2Search (s : List Char) : Nat → Option (List Char × List Char × List Char)
  | 0 => none
  | k + 1 =>
    if (s.take (k + 1)).all (fun c => !(c == '\n')) then
      match vsTail (s.drop (k + 1)) with
      | some (oid, rest2) => some (s.take (k + 1), oid, rest2)
      | none => group2Search s k
    else group2Search s k

/-- Attempt to match the whole valueset-declaration regex at the start of
`s`: the literal `valueset` (case-insensitive), ONE whitespace, a double
quote, then the greedy name group and the `vsTail` continuation. -/
def vsMatchAt (s : List Char) : Option (List Char × List Char × List Char) :=
  if ciStartsWith "valueset".data s then
    match s.drop 8 with
    | w :: q :: rest =>
      if pyIsSpace w ∧ q = '"' then group2Search rest rest.length else none
    | _ => none
  else none

/-- Scanner core for `re.finditer` of the valueset pattern: try each start
position left to right; after a match, resume AFTER the matched text
(non-overlapping matches).  Structural on fuel; each step consumes at least
one character, so `fuel = s.length` never runs out. -/
def vsScanGo : Nat → List Char → List (List Char × List Char)
  | _, [] => []
  | 0, _ => []
  | fuel + 1, c :: rest =>
    match vsMatchAt (c :: rest) with
    | some m => (m.1, m.2.1) :: vsScanGo fuel m.2.2
    | none => vsScanGo fuel rest

/-- All (name, oid) matches of the valueset-declaration pattern, in order. -/
def vsScan (s : List Char) : List (List Char × List Char) := vsScanGo s.length s

/-- The `ValueSetReference` model (models/vsac_models.py): a name/oid pair. -/
structure ValueSetReference where
  name : String
  oid : String
deriving DecidableEq

/-- A Python value that is either a `str` or anything else (`None`, a number,
...); the extractors' behavior depends only on that distinction. -/
inductive PyVal where
  | str (s : String)
  | nonString
deriving DecidableEq

/-- Embedding of `extract_valueset_identifiers_from_cql` (extractors.py lines
8-52): non-string or empty input returns empty results; otherwise every regex
match with a truthy (non-empty) name and OID adds the raw OID to a set and
appends a ValueSetReference with the STRIPPED name and OID (no deduplication
on the reference list).  The Python `list(oids)` enumerates the set in an
unspecified order; it is modelled as the first-occurrence deduplicated list,
and every property proved about it is invariant under permutation. -/
def extract_valueset_identifiers_from_cql (cql : PyVal) :
    List String × List ValueSetReference :=
  match cql with
  | .nonString => ([], [])
  | .str s =>
    if s = "" then ([], [])
    else
      let ms := (vsScan s.data).filter (fun m => !m.1.isEmpty && !m.2.isEmpty)
      (uniqueFirst (ms.map (fun m => String.mk m.2)),
       ms.map (fun m =>
         ValueSetReference.mk (String.mk (pyStripL m.1)) (String.mk (pyStripL m.2))))

/-- Tail of the individual-code pattern after the literal `from`:
`\s+"([^"]+)"`; `name` and `code` are the groups already captured. -/
def codeMatchFinish (name code : List Char) (s6 : List Char) :
    Option ((List Char × List Char × List Char) × List Char) :=
  if (s6.takeWhile pyIsSpace).isEmpty then none
  else
    match s6.dropWhile pyIsSpace with
    | q3 :: s7 =>
      if q3 = '"' then
        if (s7.takeWhile (fun c => !(c == '"'))).isEmpty then none
        else
          match s7.dropWhile (fun c => !(c == '"')) with
          | q4 :: s8 =>
            if q4 = '"' then
              some ((name, code, s7.takeWhile (fun c => !(c == '"'))), s8)
            else none
          | [] => none
      else none
    | [] => none

/-- Attempt to match the individual-code regex
`code\s+"([^"]+)":\s+'([^']+)'\s+from\s+"([^"]+)"` (IGNORECASE) at the start
of `s`.  Every quantified class here (`\s+`, `[^"]+`, `[^']+`) is followed by
a literal outside the class, so greedy maximal-munch is the unique viable
match and no backtracking arises.  Returns ((name, code, system), rest). -/
def codeMatchAt (s : List Char) : Option ((List Char × List Char × List Char) × List Char) :=
  if ciStartsWith "code".data s then
    if ((s.drop 4).takeWhile pyIsSpace).isEmpty then none
    else
      match (s.drop 4).dropWhile pyIsSpace with
      | q1 :: s2 =>
        if q1 = '"' then
          if (s2.takeWhile (fun c => !(c == '"'))).isEmpty then none
          else
            match s2.dropWhile (fun c => !(c == '"')) with
            | q2 :: colon :: s3 =>
              if q2 = '"' ∧ colon = ':' then
                if (s3.takeWhile pyIsSpace).isEmpty then none
                else
                  match s3.dropWhile pyIsSpace with
                  | a1 :: s4 =>
                    if a1 = aposChar then
                      if (s4.takeWhile (fun c => !(c == aposChar))).isEmpty then none
                      else
                        match s4.dropWhile (fun c => !(c == aposChar)) with
                        | a2 :: s5 =>
                          if a2 = aposChar then
                            if (s5.takeWhile pyIsSpace).isEmpty then none
                            else if ciStartsWith "from".data (s5.dropWhile pyIsSpace) then
                              codeMatchFinish (s2.takeWhile (fun c => !(c == '"')))
                                (s4.takeWhile (fun c => !(c == aposChar)))
                                ((s5.dropWhile pyIsSpace).drop 4)
                            else none
                          else none
                        | [] => none
                    else none
                  | [] => none
              else none
            | _ => none
        else none
      | [] => none
  else none

/-- Scanner core for `re.finditer` of the individual-code pattern. -/
def codeScanGo : Nat → List Char → List (List Char × List Char × List Char)
  | _, [] => []
  | 0, _ => []
  | fuel + 1, c :: rest =>
    match codeMatchAt (c :: rest) with
    | some m => m.1 :: codeScanGo fuel m.2
    | none => codeScanGo fuel rest

/-- All (name, code, system) matches of the individual-code pattern. -/
def codeScan (s : List Char) : List (List Char × List Char × List Char) :=
  codeScanGo s.length s

/-- One entry of the `codes` list returned by the code extractor. -/
structure IndividualCode where
  name : String
  code : String
  system : String
deriving DecidableEq

/-- The dict returned by `extract_individual_codes_from_cql`. -/
structure CodesResult where
  codes : List IndividualCode
  count : Nat
deriving DecidableEq

/-- Embedding of `extract_individual_codes_from_cql` (extractors.py lines
110-139).  The function has NO isinstance guard and NO try/except, and
`re.finditer` raises `TypeError` when its subject is not a string; the
`Except` models that exception propagating to the caller.  String input never
raises: each match contributes a (name, code, system) dict, and `count` is
the number of matches. -/
def extract_individual_codes_from_cql (cql : PyVal) : Except String CodesResult :=
  match cql with
  | .nonString => .error "TypeError: expected string or bytes-like object"
  | .str s =>
    let cs := (codeScan s.data).map (fun m =>
      IndividualCode.mk (String.mk m.1) (String.mk m.2.1) (String.mk m.2.2))
    .ok ⟨cs, cs.length⟩

/-- The single-quoted valueset declaration of the spec's quoting rule, for an
arbitrary OID. -/
def singleQuotedDecl (oid : List Char) : String :=
  "valueset \"X\": " ++ aposStr ++ "urn:oid:" ++ String.mk oid ++ aposStr

/-- The same declaration with the OID literal in double quotes. -/
def doubleQuotedDecl (oid : List Char) : String :=
  "valueset \"X\": \"urn:oid:" ++ String.mk oid ++ "\""

/-- A CQL text declaring the same OID under two different names. -/
def dupOidCql : String :=
  "valueset \"A\": " ++ aposStr ++ "urn:oid:1.2.3" ++ aposStr ++ "\nvalueset \"B\": "
    ++ aposStr ++ "urn:oid:1.2.3" ++ aposStr

/-- The text consumed by `vsTail` in a well-formed declaration: quote, colon,
space, apostrophe, the `urn:oid:` literal, the OID, a closing apostrophe, and
arbitrary remaining text. -/
def vsTailInput (oid rest : List Char) : List Char :=
  '"' :: ':' :: ' ' :: aposChar :: ("urn:oid:".data ++ (oid ++ (aposChar :: rest)))

end Mercurius

namespace Mercurius

/-- Helper: two strings with the same character data are equal. -/
theorem string_eq_of_data {a b : String} (h : a.data = b.data) : a = b := by
  cases a
  cases b
  cases h
  rfl

/-- Helper: `pyReplaceGo` with a single-character pattern and replacement maps
that substitution over the characters, given enough fuel. -/
theorem pyReplaceGo_single (a b : Char) :
    ∀ (fuel : Nat) (s : List Char), s.length ≤ fuel →
      pyReplaceGo [a] [b] fuel s = s.map (fun c => if c = a then b else c) := by
  intro fuel
  induction fuel with
  | zero =>
    intro s hs
    cases s with
    | nil => rfl
    | cons c rest => simp at hs
  | succ fuel ih =>
    intro s hs
    cases s with
    | nil => rfl
    | cons c rest =>
      simp only [List.length_cons] at hs
      have hrest : rest.length ≤ fuel := by omega
      by_cases hca : c = a
      · subst hca
        have hpre : [c].isPrefixOf (c :: rest) = true := by
          simp [List.isPrefixOf]
        have hdrop : List.drop ([c] : List Char).length (c :: rest) = rest := by simp
        simp only [pyReplaceGo, hpre, if_true, hdrop, ih rest hrest, List.map_cons,
          if_pos rfl]
        rfl
      · have hpre : [a].isPrefixOf (c :: rest) = false := by
          simp [List.isPrefixOf]
          intro hac
          exact absurd hac.symm hca
        simp only [pyReplaceGo, hpre, Bool.false_eq_true, if_false,
          ih rest hrest, List.map_cons, if_neg hca]

/-- Helper: `str.replace` with a single-character pattern and replacement is a
character map. -/
theorem pyReplaceL_single (a b : Char) (l : List Char) :
    pyReplaceL l [a] [b] = l.map (fun c => if c = a then b else c) := by
  unfold pyReplaceL
  rw [if_neg (by simp)]
  exact pyReplaceGo_single a b l.length l (Nat.le_refl _)

/-- Helper: data of `str.replace(".", "_")`. -/
theorem pyReplace_dot_data (s : String) :
    (pyReplace s "." "_").data = s.data.map dotToUnderscore :=
  pyReplaceL_single '.' '_' s.data

/-- Helper: data of `str.replace("-", "_")`. -/
theorem pyReplace_dash_data (s : String) :
    (pyReplace s "-" "_").data = s.data.map dashToUnderscore :=
  pyReplaceL_single '-' '_' s.data

/-- Helper: data of string concatenation. -/
theorem string_data_append (a b : String) : (a ++ b).data = a.data ++ b.data := rfl

/-- Helper: a digit or dot character is unchanged by uppercasing after the
dot and dash substitutions. -/
theorem oidChar_fix (c : Char) (hc : c ∈ "0123456789.".data) :
    Char.toUpper (dashToUnderscore (dotToUnderscore c)) = dotToUnderscore c := by
  fin_cases hc <;> decide

/-- Helper: inserting only unseen elements preserves `Nodup` of the
accumulator. -/
theorem foldl_insertUnique_nodup (l : List String) :
    ∀ acc : List String, acc.Nodup →
      (l.foldl (fun acc x => if x ∈ acc then acc else acc ++ [x]) acc).Nodup := by
  induction l with
  | nil => intro acc h; simpa using h
  | cons x rest ih =>
    intro acc h
    simp only [List.foldl_cons]
    by_cases hx : x ∈ acc
    · rw [if_pos hx]
      exact ih acc h
    · rw [if_neg hx]
      apply ih
      simp [List.nodup_append, h, hx]

/-- Helper: the first-occurrence deduplicated list has no duplicates. -/
theorem uniqueFirst_nodup (l : List String) : (uniqueFirst l).Nodup :=
  foldl_insertUnique_nodup l [] (by simp)

/-- Helper: on a character left fixed by uppercasing, the dot and dash
substitutions commute with each other and with uppercasing. -/
theorem codeChar_fix (c : Char) (h : c.toUpper = c) :
    Char.toUpper (dashToUnderscore (dotToUnderscore c))
      = dotToUnderscore (dashToUnderscore c) := by
  by_cases h1 : c = '.'
  · subst h1
    decide
  · by_cases h2 : c = '-'
    · subst h2
      decide
    · simp [dotToUnderscore, dashToUnderscore, h1, h2, h]

/-- Helper: a character that is neither a dot nor a dash is untouched by the
substitutions. -/
theorem systemChar_fix (c : Char) (h1 : c ≠ '.') (h2 : c ≠ '-') :
    Char.toUpper (dashToUnderscore (dotToUnderscore c)) = Char.toUpper c := by
  simp [dotToUnderscore, dashToUnderscore, h1, h2]

/-- Helper: the replacement loop appends to `unmapped` exactly the processed
tokens that have no registry entry, in iteration order. -/
theorem finalize_loop_unmapped (sqlserver : Bool) (m : List (String × List String))
    (order : List String) (st : LoopState) :
    (order.foldl (finalizeStep sqlserver m) st).unmapped
      = st.unmapped ++ order.filter (fun t => (lookupMapping m t).isNone) := by
  induction order generalizing st with
  | nil => simp
  | cons t rest ih =>
    simp only [List.foldl_cons, ih, List.filter_cons]
    cases h : lookupMapping m t with
    | some raw => simp [finalizeStep, h]
    | none => simp [finalizeStep, h]

/-- Helper: a permutation of a two-element list of distinct elements is one of
the two arrangements. -/
theorem perm_pair_cases {α : Type} [DecidableEq α] {a b : α} {l : List α}
    (h : l.Perm [a, b]) : l = [a, b] ∨ l = [b, a] := by
  have hlen := h.length_eq
  match l, hlen with
  | [x, y], _ =>
    have hx : x ∈ [a, b] := h.mem_iff.mp (by simp)
    simp only [List.mem_cons, List.mem_singleton, List.not_mem_nil, or_false] at hx
    rcases hx with hx | hx
    · subst hx
      have h2 : [y].Perm [b] := (List.perm_cons x).mp h
      left
      rw [List.perm_singleton.mp h2]
    · subst hx
      have h2 : [y].Perm [a] := (List.perm_cons x).mp (h.trans (List.Perm.swap x a []))
      right
      rw [List.perm_singleton.mp h2]

/-- Helper: stripping leaves no leading whitespace. -/
theorem dropWhile_pyStripL (l : List Char) :
    List.dropWhile pyIsSpace (pyStripL l) = pyStripL l := by
  cases h : pyStripL l with
  | nil => rfl
  | cons x xs =>
    have hpl : pyStripL l = List.rdropWhile pyIsSpace (List.dropWhile pyIsSpace l) := rfl
    have hpre : pyStripL l <+: List.dropWhile pyIsSpace l := by
      rw [hpl]
      exact List.rdropWhile_prefix pyIsSpace (List.dropWhile pyIsSpace l)
    rw [h] at hpre
    obtain ⟨t, ht⟩ := hpre
    have hx : pyIsSpace x = false := by
      by_contra hx
      have hx' : pyIsSpace x = true := by
        cases hx2 : pyIsSpace x
        · exact absurd hx2 hx
        · rfl
      have hidem := List.dropWhile_idempotent (l := l) (p := pyIsSpace)
      rw [← ht] at hidem
      simp only [List.cons_append, List.dropWhile_cons, hx', if_true] at hidem
      have hlen := length_dropWhile_le pyIsSpace (xs ++ t)
      rw [hidem] at hlen
      simp at hlen
    simp [List.dropWhile_cons, hx]

/-- Helper: Python `str.strip` is idempotent. -/
theorem pyStripL_idem (l : List Char) : pyStripL (pyStripL l) = pyStripL l := by
  show List.rdropWhile pyIsSpace (List.dropWhile pyIsSpace (pyStripL l)) = pyStripL l
  rw [dropWhile_pyStripL]
  show List.rdropWhile pyIsSpace (List.rdropWhile pyIsSpace (List.dropWhile pyIsSpace l))
    = pyStripL l
  rw [List.rdropWhile_idempotent]
  rfl

/-- Helper: every element produced by `itemFlat` is already stripped and
non-empty. -/
theorem mem_itemFlat {s' s : String} (h : s' ∈ itemFlat s) :
    pyStripL s'.data = s'.data ∧ s'.data ≠ [] := by
  unfold itemFlat at h
  by_cases hg : (pyStripL s.data).head? = some '(' ∧ (pyStripL s.data).getLast? = some ')'
  · rw [if_pos hg] at h
    obtain ⟨part, _, hf⟩ := List.mem_filterMap.mp h
    by_cases hc : pyStripL part = []
    · rw [if_pos hc] at hf
      exact absurd hf (by simp)
    · rw [if_neg hc] at hf
      have : s' = String.mk (pyStripL part) := by
        cases hf
        rfl
      subst this
      exact ⟨pyStripL_idem part, hc⟩
  · rw [if_neg hg] at h
    by_cases he : pyStripL s.data = []
    · rw [if_pos he] at h
      exact absurd h (by simp)
    · rw [if_neg he] at h
      have : s' = String.mk (pyStripL s.data) := by
        simpa using h
      subst this
      exact ⟨pyStripL_idem s.data, he⟩

/-- Helper: a stripped, non-empty, non-parenthesized string is a fixed point
of the per-element flattening. -/
theorem itemFlat_self (s : String) (h1 : pyStripL s.data = s.data) (h2 : s.data ≠ [])
    (h3 : ¬(s.data.head? = some '(' ∧ s.data.getLast? = some ')')) :
    itemFlat s = [s] := by
  unfold itemFlat
  rw [h1, if_neg h3, if_neg h2]

/-- Helper: flattening is the identity on lists of per-element fixed points. -/
theorem flatten_fixed (M : List String) (h : ∀ s ∈ M, itemFlat s = [s]) :
    flatten_concept_ids M = M := by
  induction M with
  | nil => rfl
  | cons s M ih =>
    have hs := h s (by simp)
    have hM := ih (fun x hx => h x (by simp [hx]))
    simp only [flatten_concept_ids, List.map_cons, List.flatten_cons] at hM ⊢
    rw [hs, hM]
    rfl

/-- C2 counterexample: flattening is NOT idempotent on nested parenthesized
groups: one pass over `["((1), (2))"]` yields `["(1)", "(2)"]`, whose elements
are again parenthesized groups, so a second pass flattens further. -/
theorem flatten_idempotence_counterexample :
    flatten_concept_ids ["((1), (2))"] = ["(1)", "(2)"] ∧
    flatten_concept_ids (flatten_concept_ids ["((1), (2))"]) = ["1", "2"] ∧
    flatten_concept_ids (flatten_concept_ids ["((1), (2))"])
      ≠ flatten_concept_ids ["((1), (2))"] := by
  refine ⟨by decide, by decide, by decide⟩

/-- C2 amended: flattening is idempotent on every input list whose flattening
contains no element that itself both starts with a parenthesis and ends with
one (no nested parenthesized groups); in particular, flattening an
already-flat list of stripped, non-empty, non-parenthesized elements is the
identity. -/
theorem flatten_idempotent_no_nested (L : List String)
    (h : ∀ s ∈ flatten_concept_ids L,
      ¬(s.data.head? = some '(' ∧ s.data.getLast? = some ')')) :
    flatten_concept_ids (flatten_concept_ids L) = flatten_concept_ids L := by
  apply flatten_fixed
  intro s hs
  have hmem : ∃ x ∈ L, s ∈ itemFlat x := by
    simpa [flatten_concept_ids, List.mem_flatten] using hs
  obtain ⟨x, _, hx⟩ := hmem
  obtain ⟨h1, h2⟩ := mem_itemFlat hx
  exact itemFlat_self s h1 h2 (h s hs)

/-- C2 witness: idempotence at the spec's own example list. -/
theorem flatten_idempotent_witness :
    flatten_concept_ids (flatten_concept_ids ["1", "(2, 3)", "4"])
      = flatten_concept_ids ["1", "(2, 3)", "4"] :=
  flatten_idempotent_no_nested ["1", "(2, 3)", "4"] (by decide)

/-- C10: with a non-empty SQL query and an empty registry, the engine returns
the failure record carrying the error `No placeholder mappings provided`, with
no `final_sql` and no substitution performed. -/
theorem finalize_empty_registry (sql dialect : String) (order : List String)
    (h : sql ≠ "") :
    finalize_sql_tool sql [] dialect order =
      ⟨false, none, none, some "No placeholder mappings provided", some "finalize_sql",
        0, [], [], none⟩ := by
  simp [finalize_sql_tool, finalizeCore, h]

/-- C10 witness: the empty-registry failure at a concrete non-empty SQL. -/
theorem finalize_empty_registry_witness :
    finalize_sql_tool "SELECT 1" [] "postgresql" [] =
      ⟨false, none, none, some "No placeholder mappings provided", some "finalize_sql",
        0, [], [], none⟩ :=
  finalize_empty_registry "SELECT 1" "postgresql" [] (by decide)

/-- C10 counterexample: with an empty SQL query and an empty registry the
empty-SQL guard wins, so the error is `No SQL query provided`, not
`No placeholder mappings provided` as the claim states for every call with an
empty registry. -/
theorem finalize_empty_registry_empty_sql :
    (finalize_sql_tool "" [] "postgresql" []).error = some "No SQL query provided" ∧
    (finalize_sql_tool "" [] "postgresql" []).error ≠ some "No placeholder mappings provided" := by
  constructor
  · decide
  · decide

/-- C5: the pattern-1 replacement string follows the spec's dialect branching,
except that the `NULL` fallback is decided by the RAW registry value being
empty, not the flattened list (`specPattern1Replacement` is the spec-worded
form with that amendment); and the spec's own SQL-Server and PostgreSQL
examples hold. -/
theorem pattern1_dialect_branching :
    (∀ (sqlserver : Bool) (raw : List String),
      pattern1Replacement sqlserver raw = specPattern1Replacement sqlserver raw) ∧
    (finalize_sql_tool "x IN (SELECT value FROM PLACEHOLDER_X)"
      [("PLACEHOLDER_X", ["5", "6"])] "sqlserver" ["PLACEHOLDER_X"]).final_sql
      = some "x IN (SELECT value FROM (VALUES (5), (6)) AS t(value))" ∧
    (finalize_sql_tool "x IN (SELECT value FROM PLACEHOLDER_X)"
      [("PLACEHOLDER_X", ["5", "6"])] "postgresql" ["PLACEHOLDER_X"]).final_sql
      = some "x IN (5, 6)" := by
  refine ⟨fun sqlserver raw => ?_, by decide, by decide⟩
  cases raw with
  | nil =>
    simp [pattern1Replacement, specPattern1Replacement, conceptsStrAndIds,
      flatten_concept_ids]
  | cons a l =>
    simp [pattern1Replacement, specPattern1Replacement, conceptsStrAndIds, valuesClause]

/-- C5 counterexample: a registry value that is non-empty but flattens to the
empty ID list (here `["()"]`) yields `IN ()`, not the `IN (NULL)` the claim
states for an empty flattened list. -/
theorem pattern1_empty_flatten_counterexample :
    flatten_concept_ids ["()"] = [] ∧
    (finalize_sql_tool "x IN (SELECT value FROM PLACEHOLDER_X)"
      [("PLACEHOLDER_X", ["()"])] "postgresql" ["PLACEHOLDER_X"]).final_sql
      = some "x IN ()" ∧
    some "x IN ()" ≠ some (String.mk ("x IN (NULL)".data)) := by
  refine ⟨by decide, by decide, by decide⟩

/-- C6 counterexample: for an individual code containing lowercase letters,
the derived placeholder keeps the code's case (only the system name is
uppercased), while the claimed rule uppercases the whole identifier. -/
theorem placeholder_derivation_counterexample :
    individualCodePlaceholder "LOINC" "a1-b" = "PLACEHOLDER_LOINC_a1_b" ∧
    claimPlaceholder "LOINC_a1-b" = "PLACEHOLDER_LOINC_A1_B" ∧
    individualCodePlaceholder "LOINC" "a1-b" ≠ claimPlaceholder "LOINC_a1-b" := by
  refine ⟨by decide, by decide, by decide⟩

/-- C6 amended: the value-set placeholder is `PLACEHOLDER_` plus the OID with
dots replaced by underscores, which agrees with the claimed formula whenever
the OID consists of digits and dots; the individual-code placeholder is
`PLACEHOLDER_` plus the UPPERCASED system, an underscore, and the code with
dashes and dots replaced by underscores - the code portion is NOT uppercased,
so the claimed formula holds exactly when uppercasing leaves the code
unchanged (and the system has no dots or dashes). -/
theorem placeholder_derivation :
    valuesetPlaceholder "2.16.840.1.113883.3.464"
      = "PLACEHOLDER_2_16_840_1_113883_3_464" ∧
    (∀ oid : String, (∀ c ∈ oid.data, c ∈ "0123456789.".data) →
      valuesetPlaceholder oid = claimPlaceholder oid) ∧
    (∀ system code : String,
      (∀ c ∈ system.data, c ≠ '.' ∧ c ≠ '-') →
      (∀ c ∈ code.data, c.toUpper = c) →
      individualCodePlaceholder system code = claimPlaceholder (system ++ "_" ++ code)) := by
  refine ⟨by decide, ?_, ?_⟩
  · intro oid h
    apply string_eq_of_data
    show ("PLACEHOLDER_" ++ pyReplace oid "." "_").data
      = ("PLACEHOLDER_" ++ pyUpper (pyReplace (pyReplace oid "." "_") "-" "_")).data
    have hU : (pyUpper (pyReplace (pyReplace oid "." "_") "-" "_")).data
        = (pyReplace (pyReplace oid "." "_") "-" "_").data.map Char.toUpper := rfl
    simp only [string_data_append, hU, pyReplace_dash_data, pyReplace_dot_data]
    congr 1
    rw [List.map_map, List.map_map]
    symm
    apply List.map_congr_left
    intro c hc
    simp only [Function.comp_apply]
    exact oidChar_fix c (h c hc)
  · intro system code hs hcode
    apply string_eq_of_data
    show ("PLACEHOLDER_" ++ pyUpper system ++ "_"
        ++ pyReplace (pyReplace code "-" "_") "." "_").data
      = ("PLACEHOLDER_" ++ pyUpper (pyReplace (pyReplace (system ++ "_" ++ code) "." "_") "-" "_")).data
    have hU1 : (pyUpper system).data = system.data.map Char.toUpper := rfl
    have hU2 : (pyUpper (pyReplace (pyReplace (system ++ "_" ++ code) "." "_") "-" "_")).data
        = (pyReplace (pyReplace (system ++ "_" ++ code) "." "_") "-" "_").data.map
          Char.toUpper := rfl
    have hdata : (system ++ "_" ++ code).data = system.data ++ '_' :: code.data := by
      rw [string_data_append, string_data_append]
      simp
    simp only [string_data_append, hU1, hU2, pyReplace_dash_data, pyReplace_dot_data,
      hdata]
    simp only [List.map_map, List.map_append, List.map_cons, List.append_assoc,
      List.cons_append, List.nil_append]
    have h1 : List.map (Char.toUpper ∘ dashToUnderscore ∘ dotToUnderscore) system.data
        = List.map Char.toUpper system.data := by
      apply List.map_congr_left
      intro c hc
      simp only [Function.comp_apply]
      exact systemChar_fix c (hs c hc).1 (hs c hc).2
    have h2 : Char.toUpper (dashToUnderscore (dotToUnderscore '_')) = '_' := by decide
    have h3 : List.map (Char.toUpper ∘ dashToUnderscore ∘ dotToUnderscore) code.data
        = List.map (dotToUnderscore ∘ dashToUnderscore) code.data := by
      apply List.map_congr_left
      intro c hc
      simp only [Function.comp_apply]
      exact codeChar_fix c (hcode c hc)
    rw [h1, h2, h3]

/-- C6 witness: the amended derivation rules at the spec's own OID example and
at a concrete LOINC code. -/
theorem placeholder_derivation_witness :
    valuesetPlaceholder "2.16.840" = claimPlaceholder "2.16.840" ∧
    individualCodePlaceholder "LOINC" "8462-4"
      = claimPlaceholder ("LOINC" ++ "_" ++ "8462-4") :=
  ⟨placeholder_derivation.2.1 "2.16.840" (by decide),
   placeholder_derivation.2.2 "LOINC" "8462-4" (by decide) (by decide)⟩

/-- Helper: a valid OID consists of digit-or-dot characters only. -/
theorem oidValid_all {l : List Char} (h : oidValid l = true) :
    ∀ x ∈ l, isOidChar x = true := by
  unfold oidValid at h
  simp only [Bool.and_eq_true] at h
  exact List.all_eq_true.mp h.1.1.1.2

/-- Helper: a valid OID is non-empty. -/
theorem oidValid_ne_nil {l : List Char} (h : oidValid l = true) : l ≠ [] := by
  unfold oidValid at h
  simp only [Bool.and_eq_true] at h
  have h1 := h.1.1.1.1
  simp only [Bool.not_eq_eq_eq_not, Bool.not_true] at h1
  intro hnil
  subst hnil
  simp at h1

/-- Helper: `takeWhile`/`dropWhile` on a run of satisfying characters followed
by a failing one split exactly at that character. -/
theorem takeWhile_append_stop (p : Char → Bool) (l m : List Char) (c : Char)
    (hl : ∀ x ∈ l, p x = true) (hc : p c = false) :
    (l ++ c :: m).takeWhile p = l ∧ (l ++ c :: m).dropWhile p = c :: m := by
  induction l with
  | nil => simp [List.takeWhile_cons, List.dropWhile_cons, hc]
  | cons a t ih =>
    have ha : p a = true := hl a (by simp)
    have iht := ih (fun x hx => hl x (by simp [hx]))
    simp only [List.cons_append, List.takeWhile_cons, List.dropWhile_cons, ha, if_true]
    exact ⟨by rw [iht.1], by rw [iht.2]⟩

/-- Helper: case-insensitive prefix match holds on a literal prefix. -/
theorem ciStartsWith_self_append (p t : List Char) : ciStartsWith p (p ++ t) = true := by
  induction p with
  | nil => rfl
  | cons a as ih => simp [ciStartsWith, ciEq, ih]

/-- Helper: the tail matcher succeeds on a well-formed single-quoted OID
continuation, capturing exactly the OID. -/
theorem vsTail_valid (oid rest : List Char) (hv : oidValid oid = true) :
    vsTail (vsTailInput oid rest) = some (oid, rest) := by
  have hall := oidValid_all hv
  have hsplit := takeWhile_append_stop isOidChar oid (rest) aposChar hall (by decide)
  have hdrop8 : ∀ X : List Char, ("urn:oid:".data ++ X).drop 8 = X := fun X => rfl
  simp only [vsTailInput, vsTail]
  simp [hdrop8, hsplit.1, hsplit.2, ciStartsWith_self_append, hv, pyIsSpace]
  exact ciStartsWith_self_append "urn:oid:".data (oid ++ aposChar :: rest)

/-- Helper: the tail matcher fails when the input does not start with a double
quote. -/
theorem vsTail_none (s : List Char) (h : s.head? ≠ some '"') : vsTail s = none := by
  match s with
  | [] => rfl
  | [_] => rfl
  | [_, _] => rfl
  | [_, _, _] => rfl
  | q :: colon :: w :: a :: rest =>
    have hq : q ≠ '"' := by
      intro hq
      exact h (by simp [hq])
    simp only [vsTail]
    rw [if_neg]
    intro hcond
    exact hq hcond.1

/-- Helper: dropping into a quote-free list never exposes a leading double
quote. -/
theorem head_drop_ne_quote (l : List Char) (h : ∀ c ∈ l, c ≠ '"') (j : Nat) :
    (l.drop j).head? ≠ some '"' := by
  intro hc
  have hmem : '"' ∈ l.drop j := by
    cases hd : l.drop j with
    | nil => rw [hd] at hc; simp at hc
    | cons a t =>
      rw [hd] at hc
      simp only [List.head?_cons, Option.some.injEq] at hc
      subst hc
      exact List.mem_cons_self _ _
  exact h '"' (List.drop_subset j l hmem) rfl

/-- Helper: one step of the greedy name-group search when the continuation
fails at this split. -/
theorem group2Search_step (s : List Char) (k : Nat)
    (h : vsTail (s.drop (k + 1)) = none) :
    group2Search s (k + 1) = group2Search s k := by
  simp only [group2Search, h]
  by_cases hall : (s.take (k + 1)).all (fun c => !(c == '\n')) = true
  · rw [if_pos hall]
  · rw [if_neg hall]

/-- Helper: when every split of length at least two fails, the greedy search
reduces to the length-one split. -/
theorem group2Search_to_one (s : List Char)
    (hnone : ∀ j, 2 ≤ j → vsTail (s.drop j) = none) :
    ∀ k, group2Search s (k + 1) = group2Search s 1 := by
  intro k
  induction k with
  | zero => rfl
  | succ k ih =>
    rw [group2Search_step s (k + 1) (hnone (k + 2) (by omega))]
    exact ih

/-- Helper: at the length-one split of the declaration tail, the search
captures the name `X` and the OID. -/
theorem group2Search_one (oid : List Char) (hv : oidValid oid = true) :
    group2Search ('X' :: vsTailInput oid []) 1 = some (['X'], oid, []) := by
  simp only [group2Search]
  have htake : ('X' :: vsTailInput oid []).take (0 + 1) = ['X'] := rfl
  have hx : (('X' :: vsTailInput oid []).take (0 + 1)).all (fun c => !(c == '\n')) = true := by
    rw [htake]
    decide
  rw [if_pos hx]
  have h1 : ('X' :: vsTailInput oid []).drop (0 + 1) = vsTailInput oid [] := rfl
  rw [h1, vsTail_valid oid [] hv, htake]

/-- Helper: the character data of the single-quoted declaration. -/
theorem singleQuotedDecl_data (oid : List Char) :
    (singleQuotedDecl oid).data
      = 'v' :: 'a' :: 'l' :: 'u' :: 'e' :: 's' :: 'e' :: 't' :: ' ' :: '"'
        :: ('X' :: vsTailInput oid []) := rfl

/-- Helper: the character data of the double-quoted declaration. -/
theorem doubleQuotedDecl_data (oid : List Char) :
    (doubleQuotedDecl oid).data
      = 'v' :: 'a' :: 'l' :: 'u' :: 'e' :: 's' :: 'e' :: 't' :: ' ' :: '"' :: 'X' :: '"'
        :: ':' :: ' ' :: '"' :: 'u' :: 'r' :: 'n' :: ':' :: 'o' :: 'i' :: 'd' :: ':'
        :: (oid ++ ['"']) := rfl

/-- Helper: nothing after the name's closing quote in a well-formed
declaration is a double quote. -/
theorem declTail_no_quote (oid : List Char) (hall : ∀ x ∈ oid, isOidChar x = true) :
    ∀ c ∈ (':' :: ' ' :: aposChar :: ("urn:oid:".data ++ (oid ++ (aposChar :: [])))),
      c ≠ '"' := by
  intro c hc
  rcases List.mem_cons.mp hc with rfl | hc
  · decide
  rcases List.mem_cons.mp hc with rfl | hc
  · decide
  rcases List.mem_cons.mp hc with rfl | hc
  · decide
  rcases List.mem_append.mp hc with hurn | hc
  · have hu : ∀ x ∈ "urn:oid:".data, x ≠ '"' := by decide
    exact hu c hurn
  rcases List.mem_append.mp hc with hoid | hc
  · intro heq
    subst heq
    exact absurd (hall _ hoid) (by decide)
  rcases List.mem_cons.mp hc with rfl | h0
  · decide
  · exact absurd h0 (List.not_mem_nil c)

/-- Helper: every name split of length at least two fails the continuation
match (the only double quote available is the one right after `X`). -/
theorem declTail_hnone (oid : List Char) (hall : ∀ x ∈ oid, isOidChar x = true) :
    ∀ j, 2 ≤ j → vsTail (('X' :: vsTailInput oid []).drop j) = none := by
  intro j hj
  obtain ⟨i, rfl⟩ : ∃ i, j = i + 2 := ⟨j - 2, by omega⟩
  have hdrop : ('X' :: vsTailInput oid []).drop (i + 2)
      = (':' :: ' ' :: aposChar :: ("urn:oid:".data ++ (oid ++ (aposChar :: [])))).drop i :=
    rfl
  rw [hdrop]
  exact vsTail_none _ (head_drop_ne_quote _ (declTail_no_quote oid hall) i)

/-- Helper: the whole valueset pattern matches at the start of the
single-quoted declaration, capturing the name `X` and the OID. -/
theorem vsMatchAt_single (oid : List Char) (hv : oidValid oid = true) :
    vsMatchAt (singleQuotedDecl oid).data = some (['X'], oid, []) := by
  have hstart : vsMatchAt (singleQuotedDecl oid).data
      = group2Search ('X' :: vsTailInput oid []) ('X' :: vsTailInput oid []).length := by
    rw [singleQuotedDecl_data]
    simp only [vsMatchAt]
    have hciv : ciStartsWith "valueset".data
        ('v' :: 'a' :: 'l' :: 'u' :: 'e' :: 's' :: 'e' :: 't' :: ' ' :: '"'
          :: ('X' :: vsTailInput oid [])) = true :=
      ciStartsWith_self_append "valueset".data (' ' :: '"' :: ('X' :: vsTailInput oid []))
    rw [if_pos hciv]
    rfl
  have hulen : ("urn:oid:".data).length = 8 := rfl
  have hlen : ('X' :: vsTailInput oid []).length = (13 + oid.length) + 1 := by
    simp [vsTailInput, hulen]
    omega
  rw [hstart, hlen,
    group2Search_to_one _ (declTail_hnone oid (oidValid_all hv)) (13 + oid.length)]
  exact group2Search_one oid hv

/-- Helper: a scan whose first position matches with no text left after the
match yields exactly that match. -/
theorem vsScanGo_single_result {l : List Char} {m : List Char × List Char × List Char}
    (hne : l ≠ []) (h : vsMatchAt l = some m) (hrest : m.2.2 = []) :
    vsScanGo l.length l = [(m.1, m.2.1)] := by
  match l, hne with
  | c :: rest, _ =>
    simp only [List.length_cons, vsScanGo, h, hrest]

/-- Helper: the full scan of the single-quoted declaration. -/
theorem vsScan_single (oid : List Char) (hv : oidValid oid = true) :
    vsScan (singleQuotedDecl oid).data = [(['X'], oid)] := by
  unfold vsScan
  exact vsScanGo_single_result (by rw [singleQuotedDecl_data]; simp)
    (vsMatchAt_single oid hv) rfl

/-- Helper: digit and dot characters are not whitespace. -/
theorem isOidChar_not_space (c : Char) (h : isOidChar c = true) : pyIsSpace c = false := by
  cases hs : pyIsSpace c
  · rfl
  · exfalso
    simp only [pyIsSpace, Bool.or_eq_true, beq_iff_eq] at hs
    rcases hs with ((((rfl | rfl) | rfl) | rfl) | rfl) | rfl <;> exact absurd h (by decide)

/-- Helper: stripping a whitespace-free list is the identity. -/
theorem pyStripL_no_space (l : List Char) (h : ∀ c ∈ l, pyIsSpace c = false) :
    pyStripL l = l := by
  have h1 : List.dropWhile pyIsSpace l = l := by
    cases l with
    | nil => rfl
    | cons a t => simp [List.dropWhile_cons, h a (by simp)]
  show List.rdropWhile pyIsSpace (List.dropWhile pyIsSpace l) = l
  rw [h1, List.rdropWhile_eq_self_iff]
  intro hl
  rw [h (l.getLast hl) (List.getLast_mem hl)]
  simp

/-- Helper: deduplicating a one-element list is the identity. -/
theorem uniqueFirst_singleton (x : String) : uniqueFirst [x] = [x] := by
  simp [uniqueFirst]

/-- Helper: extraction on the single-quoted declaration yields the OID and
the named reference. -/
theorem extract_single (oid : List Char) (hv : oidValid oid = true) :
    extract_valueset_identifiers_from_cql (PyVal.str (singleQuotedDecl oid))
      = ([String.mk oid], [ValueSetReference.mk "X" (String.mk oid)]) := by
  have hne : singleQuotedDecl oid ≠ "" := by
    intro h
    have h2 := congrArg String.data h
    rw [singleQuotedDecl_data] at h2
    exact absurd h2 (by simp)
  have hoe : oid.isEmpty = false := by
    cases ho : oid with
    | nil => exact absurd ho (oidValid_ne_nil hv)
    | cons a t => rfl
  have hstrip : pyStripL oid = oid :=
    pyStripL_no_space oid (fun c hc => isOidChar_not_space c (oidValid_all hv c hc))
  simp only [extract_valueset_identifiers_from_cql, if_neg hne, vsScan_single oid hv]
  simp [List.filter, hoe, uniqueFirst_singleton, hstrip]
  rfl

/-- Helper: the continuation matcher only succeeds on text containing an
apostrophe. -/
theorem vsTail_some_apos (s : List Char) (m : List Char × List Char)
    (h : vsTail s = some m) : aposChar ∈ s := by
  match s with
  | [] => exact absurd h (by simp [vsTail])
  | [_] => exact absurd h (by simp [vsTail])
  | [_, _] => exact absurd h (by simp [vsTail])
  | [_, _, _] => exact absurd h (by simp [vsTail])
  | q :: colon :: w :: a :: rest =>
    by_cases h1 : q = '"' ∧ colon = ':' ∧ pyIsSpace w ∧ a = aposChar
    · rw [h1.2.2.2]
      simp
    · simp only [vsTail] at h
      rw [if_neg h1] at h
      exact absurd h (by simp)

/-- Helper: the name-group search only succeeds on text containing an
apostrophe. -/
theorem group2Search_some_apos (s : List Char) :
    ∀ (k : Nat) (m : List Char × List Char × List Char),
      group2Search s k = some m → aposChar ∈ s := by
  intro k
  induction k with
  | zero => intro m h; exact absurd h (by simp [group2Search])
  | succ k ih =>
    intro m h
    simp only [group2Search] at h
    by_cases hall : (s.take (k + 1)).all (fun c => !(c == '\n')) = true
    · rw [if_pos hall] at h
      cases hv : vsTail (s.drop (k + 1)) with
      | some m2 =>
        exact List.drop_subset (k + 1) s (vsTail_some_apos _ m2 hv)
      | none =>
        rw [hv] at h
        exact ih m h
    · rw [if_neg hall] at h
      exact ih m h

/-- Helper: a match of the whole pattern needs an apostrophe somewhere. -/
theorem vsMatchAt_some_apos (s : List Char) (m : List Char × List Char × List Char)
    (h : vsMatchAt s = some m) : aposChar ∈ s := by
  simp only [vsMatchAt] at h
  by_cases hci : ciStartsWith "valueset".data s = true
  · rw [if_pos hci] at h
    cases hd : s.drop 8 with
    | nil => rw [hd] at h; exact absurd h (by simp)
    | cons w rest1 =>
      rw [hd] at h
      cases rest1 with
      | nil =>
        have h2 : (none : Option (List Char × List Char × List Char)) = some m := h
        exact absurd h2 (by simp)
      | cons q rest =>
        have h2 : (if pyIsSpace w = true ∧ q = '"' then group2Search rest rest.length
            else none) = some m := h
        by_cases hwq : pyIsSpace w = true ∧ q = '"'
        · rw [if_pos hwq] at h2
          have hr : aposChar ∈ rest := group2Search_some_apos rest rest.length m h2
          have : aposChar ∈ s.drop 8 := by
            rw [hd]
            simp [hr]
          exact List.drop_subset 8 s this
        · rw [if_neg hwq] at h2
          exact absurd h2 (by simp)
  · rw [if_neg hci] at h
    exact absurd h (by simp)

/-- Helper: the scanner finds nothing in apostrophe-free text. -/
theorem vsScanGo_no_apos : ∀ (fuel : Nat) (s : List Char),
    aposChar ∉ s → vsScanGo fuel s = [] := by
  intro fuel
  induction fuel with
  | zero =>
    intro s h
    cases s with
    | nil => rfl
    | cons c rest => rfl
  | succ fuel ih =>
    intro s h
    cases s with
    | nil => rfl
    | cons c rest =>
      simp only [vsScanGo]
      cases hm : vsMatchAt (c :: rest) with
      | some m => exact absurd (vsMatchAt_some_apos _ m hm) h
      | none =>
        exact ih rest (fun hmem => h (List.mem_cons_of_mem c hmem))

/-- Helper: the double-quoted declaration contains no apostrophe. -/
theorem doubleQuoted_no_apos (oid : List Char) (hall : ∀ x ∈ oid, isOidChar x = true) :
    aposChar ∉ (doubleQuotedDecl oid).data := by
  have hsplit : (doubleQuotedDecl oid).data
      = "valueset \"X\": \"urn:oid:".data ++ (oid ++ ['"']) := rfl
  rw [hsplit]
  intro h
  rcases List.mem_append.mp h with hp | h2
  · have hu : aposChar ∉ "valueset \"X\": \"urn:oid:".data := by decide
    exact hu hp
  rcases List.mem_append.mp h2 with hoid | hq
  · exact absurd (hall aposChar hoid) (by decide)
  · rcases List.mem_cons.mp hq with heq | h0
    · exact absurd heq (by decide)
    · exact absurd h0 (List.not_mem_nil aposChar)

/-- Helper: extraction on the double-quoted declaration yields nothing. -/
theorem extract_double (oid : List Char) (hall : ∀ x ∈ oid, isOidChar x = true) :
    extract_valueset_identifiers_from_cql (PyVal.str (doubleQuotedDecl oid)) = ([], []) := by
  have hne : doubleQuotedDecl oid ≠ "" := by
    intro h
    have h2 := congrArg String.data h
    rw [doubleQuotedDecl_data] at h2
    exact absurd h2 (by simp)
  have hscan : vsScan (doubleQuotedDecl oid).data = [] :=
    vsScanGo_no_apos _ _ (doubleQuoted_no_apos oid hall)
  simp [extract_valueset_identifiers_from_cql, if_neg hne, hscan, uniqueFirst]

/-- C7: for every valid OID, the single-quoted declaration
`valueset "X": 'urn:oid:O'` yields exactly O in the extracted OID list (with
the named reference), while the identical declaration with the OID literal in
double quotes yields nothing - the double-quoted form is not matched. -/
theorem oid_quoting :
    (∀ oid : List Char, oidValid oid = true →
      extract_valueset_identifiers_from_cql (PyVal.str (singleQuotedDecl oid))
        = ([String.mk oid], [ValueSetReference.mk "X" (String.mk oid)])) ∧
    (∀ oid : List Char, oidValid oid = true →
      extract_valueset_identifiers_from_cql (PyVal.str (doubleQuotedDecl oid)) = ([], [])) :=
  ⟨extract_single, fun oid hv => extract_double oid (oidValid_all hv)⟩

/-- C7 witness: the quoting rule at the spec's example OID. -/
theorem oid_quoting_witness :
    extract_valueset_identifiers_from_cql
      (PyVal.str (singleQuotedDecl "2.16.840.1.113883.3.464.1003.103.12.1001".data))
      = (["2.16.840.1.113883.3.464.1003.103.12.1001"],
         [ValueSetReference.mk "X" "2.16.840.1.113883.3.464.1003.103.12.1001"]) ∧
    extract_valueset_identifiers_from_cql
      (PyVal.str (doubleQuotedDecl "2.16.840.1.113883.3.464.1003.103.12.1001".data))
      = ([], []) :=
  ⟨oid_quoting.1 "2.16.840.1.113883.3.464.1003.103.12.1001".data (by decide),
   oid_quoting.2 "2.16.840.1.113883.3.464.1003.103.12.1001".data (by decide)⟩

/-- C9: the valueset extractor returns empty results on non-string input (it
has both an isinstance guard and a try/except), but the individual-code
extractor has neither, and `re.finditer` raises TypeError on a non-string
subject, so the exception propagates to the caller instead of an empty codes
result. -/
theorem extractors_nonstring :
    extract_valueset_identifiers_from_cql PyVal.nonString = ([], []) ∧
    extract_individual_codes_from_cql PyVal.nonString
      = Except.error "TypeError: expected string or bytes-like object" :=
  ⟨rfl, rfl⟩

/-- C8 counterexample: the same OID declared under two names yields TWO
ValueSetReference entries - one per regex match, with no deduplication of the
reference list - not exactly one entry per distinct OID. -/
theorem valueset_dedup_counterexample :
    extract_valueset_identifiers_from_cql (.str dupOidCql)
      = (["1.2.3"], [⟨"A", "1.2.3"⟩, ⟨"B", "1.2.3"⟩]) ∧
    ((extract_valueset_identifiers_from_cql (.str dupOidCql)).2).length = 2 ∧
    uniqueFirst (((extract_valueset_identifiers_from_cql (.str dupOidCql)).2).map
      (fun v => v.oid)) = ["1.2.3"] := by
  refine ⟨by decide, by decide, by decide⟩

/-- C8 amended: the returned OID list contains each OID at most once, for
every input; the ValueSetReference list keeps one entry per match (so a
duplicate OID appears once per declaration, the first-seen name first), as in
the duplicate-declaration example. -/
theorem valueset_dedup :
    (∀ cql : PyVal, ((extract_valueset_identifiers_from_cql cql).1).Nodup) ∧
    (extract_valueset_identifiers_from_cql (.str dupOidCql)).1 = ["1.2.3"] ∧
    (extract_valueset_identifiers_from_cql (.str dupOidCql)).2
      = [⟨"A", "1.2.3"⟩, ⟨"B", "1.2.3"⟩] := by
  refine ⟨?_, by decide, by decide⟩
  intro cql
  cases cql with
  | nonString => simp [extract_valueset_identifiers_from_cql]
  | str s =>
    by_cases h : s = ""
    · simp [extract_valueset_identifiers_from_cql, h]
    · simp only [extract_valueset_identifiers_from_cql, if_neg h]
      exact uniqueFirst_nodup _

/-- C3: the output of the substitution engine depends on the iteration order
over the set of unique placeholders discovered in the SQL: with the token
`PLACEHOLDER_A` a substring of the token `PLACEHOLDER_AB` and both present,
the two possible iteration orders over the discovered set produce different
final SQL. -/
theorem finalize_order_dependence :
    uniqueFirst (findPlaceholders "PLACEHOLDER_A PLACEHOLDER_AB")
      = ["PLACEHOLDER_A", "PLACEHOLDER_AB"] ∧
    List.Perm ["PLACEHOLDER_AB", "PLACEHOLDER_A"] ["PLACEHOLDER_A", "PLACEHOLDER_AB"] ∧
    (finalize_sql_tool "PLACEHOLDER_A PLACEHOLDER_AB"
      [("PLACEHOLDER_A", ["1"]), ("PLACEHOLDER_AB", ["2"])] "postgresql"
      ["PLACEHOLDER_A", "PLACEHOLDER_AB"]).final_sql = some "(1) (1)B" ∧
    (finalize_sql_tool "PLACEHOLDER_A PLACEHOLDER_AB"
      [("PLACEHOLDER_A", ["1"]), ("PLACEHOLDER_AB", ["2"])] "postgresql"
      ["PLACEHOLDER_AB", "PLACEHOLDER_A"]).final_sql = some "(1) (2)" ∧
    (finalize_sql_tool "PLACEHOLDER_A PLACEHOLDER_AB"
      [("PLACEHOLDER_A", ["1"]), ("PLACEHOLDER_AB", ["2"])] "postgresql"
      ["PLACEHOLDER_A", "PLACEHOLDER_AB"]).final_sql ≠
    (finalize_sql_tool "PLACEHOLDER_A PLACEHOLDER_AB"
      [("PLACEHOLDER_A", ["1"]), ("PLACEHOLDER_AB", ["2"])] "postgresql"
      ["PLACEHOLDER_AB", "PLACEHOLDER_A"]).final_sql := by
  refine ⟨by decide, List.Perm.swap "PLACEHOLDER_A" "PLACEHOLDER_AB" [], by decide, by decide, by decide⟩

/-- C1 counterexample: a token occurring both in the subquery form
`IN (SELECT value FROM TOKEN)` and, elsewhere, as a bare `TOKEN` has only the
subquery occurrence replaced; the bare occurrence survives into the output
(patterns 3 and 4 are skipped once the `replaced` flag is set). -/
theorem pattern_priority_counterexample :
    (finalize_sql_tool "a IN (SELECT value FROM PLACEHOLDER_A) AND b PLACEHOLDER_A"
      [("PLACEHOLDER_A", ["1"])] "postgresql" ["PLACEHOLDER_A"]).final_sql
      = some "a IN (1) AND b PLACEHOLDER_A" ∧
    (finalize_sql_tool "a IN (SELECT value FROM PLACEHOLDER_A) AND b PLACEHOLDER_A"
      [("PLACEHOLDER_A", ["1"])] "postgresql" ["PLACEHOLDER_A"]).remaining_placeholders
      = ["PLACEHOLDER_A"] ∧
    (finalize_sql_tool "a IN (SELECT value FROM PLACEHOLDER_A) AND b PLACEHOLDER_A"
      [("PLACEHOLDER_A", ["1"])] "postgresql" ["PLACEHOLDER_A"]).success = false := by
  refine ⟨by decide, by decide, by decide⟩

/-- C1 amended: patterns 1 and 2 are checked independently, but pattern 3 runs
only when neither matched and pattern 4 only when patterns 1-3 all failed;
consequently (for every dialect) a mapped token occurring in subquery-plus-bare
or parenthesized-plus-bare form keeps its bare occurrence, while a token all of
whose occurrences are bare, or all parenthesized, is fully replaced. -/
theorem pattern_priority (d : String) :
    ((finalize_sql_tool "a IN (SELECT value FROM PLACEHOLDER_A) AND b PLACEHOLDER_A"
      [("PLACEHOLDER_A", ["1"])] d ["PLACEHOLDER_A"]).remaining_placeholders
      = ["PLACEHOLDER_A"] ∧
     (finalize_sql_tool "a IN (SELECT value FROM PLACEHOLDER_A) AND b PLACEHOLDER_A"
      [("PLACEHOLDER_A", ["1"])] d ["PLACEHOLDER_A"]).success = false) ∧
    ((finalize_sql_tool "a (PLACEHOLDER_A) AND b PLACEHOLDER_A"
      [("PLACEHOLDER_A", ["1"])] d ["PLACEHOLDER_A"]).remaining_placeholders
      = ["PLACEHOLDER_A"] ∧
     (finalize_sql_tool "a (PLACEHOLDER_A) AND b PLACEHOLDER_A"
      [("PLACEHOLDER_A", ["1"])] d ["PLACEHOLDER_A"]).success = false) ∧
    ((finalize_sql_tool "a PLACEHOLDER_A AND b PLACEHOLDER_A"
      [("PLACEHOLDER_A", ["1"])] d ["PLACEHOLDER_A"]).remaining_placeholders = [] ∧
     (finalize_sql_tool "a PLACEHOLDER_A AND b PLACEHOLDER_A"
      [("PLACEHOLDER_A", ["1"])] d ["PLACEHOLDER_A"]).success = true) ∧
    ((finalize_sql_tool "a IN (PLACEHOLDER_A) AND b IN (PLACEHOLDER_A)"
      [("PLACEHOLDER_A", ["1"])] d ["PLACEHOLDER_A"]).remaining_placeholders = [] ∧
     (finalize_sql_tool "a IN (PLACEHOLDER_A) AND b IN (PLACEHOLDER_A)"
      [("PLACEHOLDER_A", ["1"])] d ["PLACEHOLDER_A"]).success = true) := by
  cases hd : d == "sqlserver" <;> simp only [finalize_sql_tool, hd] <;> decide

/-- C4 counterexample: the registry-mapped token `PLACEHOLDER_A` is a
substring of the unmapped token `PLACEHOLDER_AB`, so replacing the mapped
token destroys the unmapped token's literal text: the unmapped token is still
reported in `unmapped_placeholders`, but it is NOT left as literal text in the
output, does NOT appear in `remaining_placeholders`, and `success` is True. -/
theorem unmapped_clobbered_counterexample :
    uniqueFirst (findPlaceholders "PLACEHOLDER_A PLACEHOLDER_AB")
      = ["PLACEHOLDER_A", "PLACEHOLDER_AB"] ∧
    (finalize_sql_tool "PLACEHOLDER_A PLACEHOLDER_AB" [("PLACEHOLDER_A", ["1"])]
      "postgresql" ["PLACEHOLDER_A", "PLACEHOLDER_AB"]).unmapped_placeholders
      = ["PLACEHOLDER_AB"] ∧
    (finalize_sql_tool "PLACEHOLDER_A PLACEHOLDER_AB" [("PLACEHOLDER_A", ["1"])]
      "postgresql" ["PLACEHOLDER_A", "PLACEHOLDER_AB"]).final_sql = some "(1) (1)B" ∧
    (finalize_sql_tool "PLACEHOLDER_A PLACEHOLDER_AB" [("PLACEHOLDER_A", ["1"])]
      "postgresql" ["PLACEHOLDER_A", "PLACEHOLDER_AB"]).remaining_placeholders = [] ∧
    (finalize_sql_tool "PLACEHOLDER_A PLACEHOLDER_AB" [("PLACEHOLDER_A", ["1"])]
      "postgresql" ["PLACEHOLDER_A", "PLACEHOLDER_AB"]).success = true ∧
    containsSub "(1) (1)B" "PLACEHOLDER_AB" = false := by
  refine ⟨by decide, by decide, by decide, by decide, by decide, by decide⟩

/-- C4 amended: a token processed by the loop but absent from the registry is
always reported (the unmapped list is exactly the processed tokens without a
registry entry, in iteration order); and in the spec's own scenario - where no
mapped token's occurrences overlap the unmapped token's text - the unmapped
token is left as literal text, appears in `remaining_placeholders`, `success`
is False, and the mapped token is still replaced, for every dialect and every
iteration order over the discovered-token set. -/
theorem unmapped_reporting :
    (∀ (sql d : String) (m : List (String × List String)) (order : List String),
      sql ≠ "" → m ≠ [] →
      (finalize_sql_tool sql m d order).unmapped_placeholders
        = order.filter (fun t => (lookupMapping m t).isNone)) ∧
    uniqueFirst (findPlaceholders unmappedExampleSql)
      = ["PLACEHOLDER_DIABETES", "PLACEHOLDER_UNKNOWN_X"] ∧
    (∀ (d : String) (order : List String),
      order.Perm ["PLACEHOLDER_DIABETES", "PLACEHOLDER_UNKNOWN_X"] →
      (finalize_sql_tool unmappedExampleSql unmappedExampleMappings d order).unmapped_placeholders
        = ["PLACEHOLDER_UNKNOWN_X"] ∧
      (finalize_sql_tool unmappedExampleSql unmappedExampleMappings d order).remaining_placeholders
        = ["PLACEHOLDER_UNKNOWN_X"] ∧
      (finalize_sql_tool unmappedExampleSql unmappedExampleMappings d order).success = false ∧
      (finalize_sql_tool unmappedExampleSql unmappedExampleMappings d order).final_sql
        = some "SELECT * FROM t WHERE a IN (101, 102) AND b IN (PLACEHOLDER_UNKNOWN_X)") := by
  refine ⟨?_, by decide, ?_⟩
  · intro sql d m order hsql hm
    simp [finalize_sql_tool, finalizeCore, hsql, hm, finalize_loop_unmapped]
  · intro d order hp
    rcases perm_pair_cases hp with h | h <;> subst h <;>
      cases hd : d == "sqlserver" <;> simp only [finalize_sql_tool, hd] <;>
      exact ⟨by decide, by decide, by decide, by decide⟩

/-- C4 witness: the unmapped-list characterization at a concrete run, and the
spec scenario at the discovery order with the postgresql dialect. -/
theorem unmapped_reporting_witness :
    (finalize_sql_tool "x PLACEHOLDER_Q" [("PLACEHOLDER_Q", ["7"])] "postgresql"
      ["PLACEHOLDER_Q", "PLACEHOLDER_R"]).unmapped_placeholders
      = (["PLACEHOLDER_Q", "PLACEHOLDER_R"].filter
          (fun t => (lookupMapping [("PLACEHOLDER_Q", ["7"])] t).isNone)) ∧
    ((finalize_sql_tool unmappedExampleSql unmappedExampleMappings "postgresql"
      ["PLACEHOLDER_DIABETES", "PLACEHOLDER_UNKNOWN_X"]).unmapped_placeholders
      = ["PLACEHOLDER_UNKNOWN_X"] ∧
     (finalize_sql_tool unmappedExampleSql unmappedExampleMappings "postgresql"
      ["PLACEHOLDER_DIABETES", "PLACEHOLDER_UNKNOWN_X"]).remaining_placeholders
      = ["PLACEHOLDER_UNKNOWN_X"] ∧
     (finalize_sql_tool unmappedExampleSql unmappedExampleMappings "postgresql"
      ["PLACEHOLDER_DIABETES", "PLACEHOLDER_UNKNOWN_X"]).success = false ∧
     (finalize_sql_tool unmappedExampleSql unmappedExampleMappings "postgresql"
      ["PLACEHOLDER_DIABETES", "PLACEHOLDER_UNKNOWN_X"]).final_sql
      = some "SELECT * FROM t WHERE a IN (101, 102) AND b IN (PLACEHOLDER_UNKNOWN_X)") :=
  ⟨unmapped_reporting.1 "x PLACEHOLDER_Q" "postgresql" [("PLACEHOLDER_Q", ["7"])]
      ["PLACEHOLDER_Q", "PLACEHOLDER_R"] (by decide) (by decide),
   unmapped_reporting.2.2 "postgresql" ["PLACEHOLDER_DIABETES", "PLACEHOLDER_UNKNOWN_X"]
      (List.Perm.refl _)⟩

end Mercurius
